import Mathlib

/-!
# Quote block tool (`src/index.js`): data model, view builder and mutation handlers

A shallow embedding of the `Quote` class.  JavaScript values are modelled by
`JSValue`, failures (`TypeError`) by `Except JSError`, the DOM fragment by the
two-level structures `Node` (a leaf `DIV`) and `Element` (the block's root
`DIV`).  Names follow the source; the source's leading underscore of private
members (`_normalizeData`, `_getElement`, ...) is dropped.

Modelling conventions:
* `innerHTML` holds the assigned string verbatim (inline markup is opaque);
* `classList` is an ordered token list, `add` appends a token that is absent,
  `remove` deletes the token;
* `console.warn` diagnostics and the `keydown` listener of the content node
  have no effect on the modelled state and are left out;
* whether `this._element.parentNode` is non-null is the flag `attached`.
-/

namespace Quote

/-! ## JavaScript values -/

/-- A JavaScript value, as far as the program observes it.  A number is
observed only through its truthiness and its string rendering, so it is
represented by exactly these two observations. -/
inductive JSValue where
  | undefined
  | null
  | boolean (b : Bool)
  | number (falsy : Bool) (text : String)
  | string (s : String)
  | object (fields : List (String × JSValue))

/-- The error raised by reading a property of `undefined` or `null`. -/
inductive JSError where
  | typeError
  deriving DecidableEq, Repr

namespace JSValue

/-- ToBoolean. -/
def truthy : JSValue → Bool
  | undefined => false
  | null => false
  | boolean b => b
  | number falsy _ => !falsy
  | string s => !(s == "")
  | object _ => true

/-- The operator `a || b`. -/
def or (a b : JSValue) : JSValue :=
  if a.truthy then a else b

/-- The test `typeof v === 'object'` (true for `null` as well). -/
def typeofObject : JSValue → Bool
  | null => true
  | object _ => true
  | _ => false

/-- Property read `v.key`: a `TypeError` on `undefined` and `null`, the field
(or `undefined`) on a record, `undefined` on the other primitives. -/
def get (v : JSValue) (key : String) : Except JSError JSValue :=
  match v with
  | undefined => .error .typeError
  | null => .error .typeError
  | object fields => .ok ((fields.lookup key).getD undefined)
  | _ => .ok undefined

/-- Strict equality `v === s` against a string. -/
def strictEq (v : JSValue) (s : String) : Bool :=
  match v with
  | string t => t == s
  | _ => false

/-- ToString, as applied by string concatenation and by the `innerHTML`
setter. -/
def toStr : JSValue → String
  | undefined => "undefined"
  | null => "null"
  | boolean true => "true"
  | boolean false => "false"
  | number _ text => text
  | string s => s
  | object _ => "[object Object]"

end JSValue

/-! ## Static members -/

/-- All supported quote styles. -/
def QUOTE_STYLES : List String := ["simple", "block"]

/-- Default quote style. -/
def DEFAULT_QUOTE_STYLE : String := "simple"

/-- All supported alignment types. -/
def ALIGN_TYPES : List String := ["left", "center", "right", "justify"]

/-- Default alignment type. -/
def DEFAULT_ALIGN_TYPE : String := "left"

/-! ## Configuration, data and DOM -/

/-- The tool configuration; every field may be absent. -/
structure Config where
  placeholder : Option String := none
  quoteStyles : Option (List String) := none
  defaultQuoteStyle : Option String := none
  alignTypes : Option (List String) := none
  defaultAlignType : Option String := none
  deriving DecidableEq, Repr

/-- The part of the host API the tool consumes: `api.styles.block` and
`api.i18n.t`. -/
structure API where
  block : String
  t : String → String

/-- The record `this._data`. -/
structure BlockData where
  text : JSValue
  style : JSValue
  align : JSValue

/-- A leaf `DIV` of the fragment: a quote mark or the quote content. -/
structure Node where
  innerHTML : String
  contentEditable : Bool
  classList : List String
  placeholder : Option String
  deriving DecidableEq, Repr

/-- The root `DIV` of the block. -/
structure Element where
  classList : List String
  children : List Node
  deriving DecidableEq, Repr

/-- The record returned by `save`. -/
structure SavedData where
  text : String
  style : String
  align : String
  deriving DecidableEq, Repr

/-- Constructor arguments `{api, readOnly, config, data}`. -/
structure Props where
  api : API
  readOnly : Bool
  config : Option Config
  data : JSValue

/-- An instance of the class.  The flag `attached` records whether
`this._element.parentNode` is non-null. -/
structure Block where
  api : API
  readOnly : Bool
  config : Config
  data : BlockData
  element : Element
  attached : Bool

/-- DOMTokenList `add` of one token. -/
def classAdd (l : List String) (c : String) : List String :=
  if c ∈ l then l else l ++ [c]

/-- DOMTokenList `remove` of one token. -/
def classRemove (l : List String) (c : String) : List String :=
  l.filter (fun x => !(x == c))

/-- DOMTokenList `add(...tokens)`. -/
def classAddAll (l : List String) (cs : List String) : List String :=
  cs.foldl classAdd l

/-- The member `this._CSS.wrapper`. -/
def CSS_wrapper : String := "ce-quote-wrapper"

/-- The member `this._CSS.quote`. -/
def CSS_quote : String := "ce-quote"

/-- The member `this._CSS.wrapperForStyle`. -/
def wrapperForStyle (quoteStyle : String) : String := "ce-quote-" ++ quoteStyle

/-- The member `this._CSS.wrapperForAlignment`. -/
def wrapperForAlignment (alignType : String) : String := "ce-quote-align-" ++ alignType

/-! ## Configuration resolver -/

/-- All available quote styles: the supported styles the user's list includes,
or every supported style when no list is configured. -/
def availableQuoteStyles (cfg : Config) : List String :=
  match cfg.quoteStyles with
  | some quoteStyles => QUOTE_STYLES.filter (fun style => quoteStyles.contains style)
  | none => QUOTE_STYLES

/-- User's default quote style. -/
def userDefaultQuoteStyle (cfg : Config) : String :=
  match cfg.defaultQuoteStyle with
  | some d =>
    if d ≠ "" then
      match (availableQuoteStyles cfg).find? (fun align => align == d) with
      | some userSpecified => if userSpecified ≠ "" then userSpecified else DEFAULT_QUOTE_STYLE
      | none => DEFAULT_QUOTE_STYLE
    else DEFAULT_QUOTE_STYLE
  | none => DEFAULT_QUOTE_STYLE

/-- All available alignment types. -/
def availableAlignTypes (cfg : Config) : List String :=
  match cfg.alignTypes with
  | some alignTypes => ALIGN_TYPES.filter (fun align => alignTypes.contains align)
  | none => ALIGN_TYPES

/-- User's default alignment type. -/
def userDefaultAlignType (cfg : Config) : String :=
  match cfg.defaultAlignType with
  | some d =>
    if d ≠ "" then
      match (availableAlignTypes cfg).find? (fun align => align == d) with
      | some userSpecified => if userSpecified ≠ "" then userSpecified else DEFAULT_ALIGN_TYPE
      | none => DEFAULT_ALIGN_TYPE
    else DEFAULT_ALIGN_TYPE
  | none => DEFAULT_ALIGN_TYPE

/-- The method `_normalizeData`. -/
def normalizeData (cfg : Config) (data : JSValue) : Except JSError BlockData := do
  let data := if !data.typeofObject then JSValue.object [] else data
  let text ← data.get "text"
  let style ← data.get "style"
  let align ← data.get "align"
  pure
    { text := text.or (.string "")
      style := style.or (.string (userDefaultQuoteStyle cfg))
      align := align.or (.string (userDefaultAlignType cfg)) }

/-- Current quote style, from the configuration and `this._data`. -/
def currentQuoteStyle (cfg : Config) (data : BlockData) : String :=
  match (availableQuoteStyles cfg).find? (fun style => data.style.strictEq style) with
  | some quoteStyle => if quoteStyle ≠ "" then quoteStyle else userDefaultQuoteStyle cfg
  | none => userDefaultQuoteStyle cfg

/-- Current alignment type, from the configuration and `this._data`. -/
def currentAlignType (cfg : Config) (data : BlockData) : String :=
  match (availableAlignTypes cfg).find? (fun align => data.align.strictEq align) with
  | some alignType => if alignType ≠ "" then alignType else userDefaultAlignType cfg
  | none => userDefaultAlignType cfg

/-! ## View builder -/

/-- HTML element to represent the opening block quote. -/
def createOpeningQuote : Node :=
  { innerHTML := "“"
    contentEditable := false
    classList := classAddAll [] [CSS_wrapper, wrapperForAlignment "left"]
    placeholder := none }

/-- HTML element to represent the closing block quote. -/
def createClosingQuote : Node :=
  { innerHTML := "”"
    contentEditable := false
    classList := classAddAll [] [CSS_wrapper, wrapperForAlignment "right"]
    placeholder := none }

/-- The expression `this._config.placeholder || 'Enter quote text'`. -/
def placeholderText (cfg : Config) : String :=
  match cfg.placeholder with
  | some p => if p ≠ "" then p else "Enter quote text"
  | none => "Enter quote text"

/-- HTML element to represent the quote content. -/
def createQuoteContent (api : API) (readOnly : Bool) (cfg : Config) (data : BlockData) : Node :=
  { innerHTML := (data.text.or (.string "")).toStr
    contentEditable := !readOnly
    classList := classAddAll []
      [CSS_quote, wrapperForStyle (currentQuoteStyle cfg data),
        wrapperForAlignment (currentAlignType cfg data)]
    placeholder := some (api.t (placeholderText cfg)) }

/-- Create and return the block element (`_getElement`). -/
def getElement (api : API) (readOnly : Bool) (cfg : Config) (data : BlockData) : Element :=
  { classList := classAddAll [] [api.block]
    children :=
      (if currentQuoteStyle cfg data = "block" then [createOpeningQuote] else [])
        ++ [createQuoteContent api readOnly cfg data]
        ++ (if currentQuoteStyle cfg data = "block" then [createClosingQuote] else []) }

/-- The child index `_getContentTarget` reads. -/
def contentIndex (cfg : Config) (data : BlockData) : Nat :=
  if currentQuoteStyle cfg data = "block" then 1 else 0

/-- The method `_getContentTarget`: `none` stands for `undefined`. -/
def getContentTarget (cfg : Config) (data : BlockData) (element : Element) : Option Node :=
  element.children.get? (contentIndex cfg data)

/-- Dereferencing the content target: a `TypeError` when it is `undefined`. -/
def derefTarget (target : Option Node) : Except JSError Node :=
  match target with
  | some node => .ok node
  | none => .error .typeError

/-! ## Construction and mutation handlers -/

/-- The constructor. -/
def construct (props : Props) : Except JSError Block := do
  let cfg := props.config.getD {}
  let data ← normalizeData cfg props.data
  pure
    { api := props.api
      readOnly := props.readOnly
      config := cfg
      data := data
      element := getElement props.api props.readOnly cfg data
      attached := false }

/-- The host inserts the rendered fragment into the document; this is the
host's action, after which `this._element.parentNode` is non-null. -/
def hostInsert (b : Block) : Block :=
  { b with attached := true }

/-- The method `render`. -/
def render (b : Block) : Element := b.element

/-- One pass of the `forEach` body of `_setAlignType` over a class list. -/
def alignStep (newAlign : JSValue) (classes : List String) (align : String) : List String :=
  let alignClass := wrapperForAlignment align
  let classes := classRemove classes alignClass
  if newAlign.strictEq align then classAdd classes alignClass else classes

/-- Callback for the alignment setting (`_setAlignType`). -/
def setAlignType (b : Block) (newAlign : JSValue) : Except JSError Block := do
  let data := { b.data with align := newAlign }
  let contentTarget ← derefTarget (getContentTarget b.config data b.element)
  let contentTarget :=
    { contentTarget with classList := ALIGN_TYPES.foldl (alignStep newAlign) contentTarget.classList }
  pure
    { b with
      data := data
      element :=
        { b.element with
          children := b.element.children.set (contentIndex b.config data) contentTarget } }

/-- Replace the current element with a new one (`_replaceElement`). -/
def replaceElement (b : Block) : Block :=
  if b.attached then
    { b with element := getElement b.api b.readOnly b.config b.data }
  else b

/-- Callback for the style change to simple (`_setSimpleQuote`). -/
def setSimpleQuote (b : Block) : Except JSError Block := do
  let target ← derefTarget (getContentTarget b.config b.data b.element)
  let b := { b with data := { b.data with text := .string target.innerHTML } }
  if currentQuoteStyle b.config b.data ≠ "simple" then
    pure (replaceElement { b with data := { b.data with style := .string "simple" } })
  else
    pure b

/-- Callback for the style change to block (`_setBlockQuote`). -/
def setBlockQuote (b : Block) : Except JSError Block := do
  let target ← derefTarget (getContentTarget b.config b.data b.element)
  let b := { b with data := { b.data with text := .string target.innerHTML } }
  if currentQuoteStyle b.config b.data ≠ "block" then
    pure (replaceElement { b with data := { b.data with style := .string "block" } })
  else
    pure b

/-- The method `save`. -/
def save (b : Block) (blockContent : Element) : Except JSError SavedData := do
  let target ← derefTarget (getContentTarget b.config b.data blockContent)
  pure
    { text := target.innerHTML
      style := currentQuoteStyle b.config b.data
      align := currentAlignType b.config b.data }

/-- The expression `contentTarget.innerHTML + data.text || ''`, which parses
as `(contentTarget.innerHTML + data.text) || ''`. -/
def mergedContent (innerHTML : String) (text : JSValue) : String :=
  ((JSValue.string (innerHTML ++ text.toStr)).or (.string "")).toStr

/-- The method `merge`. -/
def merge (b : Block) (data : JSValue) : Except JSError Block := do
  let contentTarget ← derefTarget (getContentTarget b.config b.data b.element)
  let text ← data.get "text"
  let contentTarget :=
    { contentTarget with innerHTML := mergedContent contentTarget.innerHTML text }
  pure
    { b with
      element :=
        { b.element with
          children := b.element.children.set (contentIndex b.config b.data) contentTarget } }

/-- A call made on an instance after construction. -/
inductive Op where
  | setSimple
  | setBlock
  | setAlign (newAlign : JSValue)
  | merge (data : JSValue)

/-- Perform one call. -/
def applyOp (b : Block) : Op → Except JSError Block
  | .setSimple => setSimpleQuote b
  | .setBlock => setBlockQuote b
  | .setAlign newAlign => setAlignType b newAlign
  | .merge data => merge b data

/-- Perform a sequence of calls, stopping at the first error. -/
def runOps (b : Block) : List Op → Except JSError Block
  | [] => .ok b
  | op :: ops =>
    match applyOp b op with
    | .ok b1 => runOps b1 ops
    | .error e => .error e

/-! ## Consistency of the fragment with the current style -/

/-- The editable content node: it carries the generic quote-content marker
and is editable unless the block is read-only. -/
def isContentNode (readOnly : Bool) (n : Node) : Bool :=
  decide (CSS_quote ∈ n.classList) && (n.contentEditable == !readOnly)

/-- The children `_getElement` lays out around a content node `c` for the
style `quoteStyle`. -/
def layoutFor (quoteStyle : String) (c : Node) : List Node :=
  (if quoteStyle = "block" then [createOpeningQuote] else [])
    ++ [c]
    ++ (if quoteStyle = "block" then [createClosingQuote] else [])

/-- The instance's fragment has the child layout of its current style:
opening mark, content node, closing mark for `block`; the content node alone
otherwise. -/
def layoutOk (b : Block) : Bool :=
  if currentQuoteStyle b.config b.data = "block" then
    match b.element.children with
    | [o, c, q] => o == createOpeningQuote && isContentNode b.readOnly c && q == createClosingQuote
    | _ => false
  else
    match b.element.children with
    | [c] => isContentNode b.readOnly c
    | _ => false

/-- A call the host can make: `merge` receives a value whose `text` can be
read (anything but `undefined` and `null`). -/
def Op.callable : Op → Bool
  | .merge .undefined => false
  | .merge .null => false
  | _ => true

/-! ## Spec-level resolution (for comparison with the code) -/

/-- Effective default style in the spec's words: the configured default when
it is a member of the available styles, else the built-in default. -/
def specDefaultStyle (cfg : Config) : String :=
  match cfg.defaultQuoteStyle with
  | some d => if d ∈ availableQuoteStyles cfg then d else "simple"
  | none => "simple"

/-- Effective default alignment in the spec's words. -/
def specDefaultAlign (cfg : Config) : String :=
  match cfg.defaultAlignType with
  | some d => if d ∈ availableAlignTypes cfg then d else "left"
  | none => "left"

/-- Resolved style in the spec's words: the stored value when it is a member
of the available styles, else the effective default. -/
def specCurrentStyle (cfg : Config) (stored : JSValue) : String :=
  match stored with
  | .string s => if s ∈ availableQuoteStyles cfg then s else specDefaultStyle cfg
  | _ => specDefaultStyle cfg

/-- Resolved alignment in the spec's words. -/
def specCurrentAlign (cfg : Config) (stored : JSValue) : String :=
  match stored with
  | .string s => if s ∈ availableAlignTypes cfg then s else specDefaultAlign cfg
  | _ => specDefaultAlign cfg

/-! # Theorems -/

/-! ## Lemmas on list search -/

theorem find_beq_right (l : List String) (d : String) :
    l.find? (fun a => a == d) = if d ∈ l then some d else none := by
  induction l with
  | nil => simp
  | cons x xs ih =>
    by_cases h : x = d
    · subst h; simp
    · have h2 : ¬ d = x := fun e => h e.symm
      simp [List.find?_cons, h, h2, ih]

theorem find_strictEq (l : List String) (v : JSValue) :
    l.find? (fun a => v.strictEq a) =
      match v with
      | .string s => if s ∈ l then some s else none
      | _ => none := by
  cases v with
  | string s =>
    have : (fun a => (JSValue.string s).strictEq a) = (fun a => a == s) := by
      funext a
      simp only [JSValue.strictEq]
      by_cases h : s = a
      · subst h; simp
      · have h2 : ¬ a = s := fun e => h e.symm
        simp [h, h2]
    rw [this, find_beq_right]
  | _ => simp [JSValue.strictEq]

theorem mem_availableQuoteStyles (cfg : Config) (s : String) :
    s ∈ availableQuoteStyles cfg ↔
      s ∈ QUOTE_STYLES ∧ (cfg.quoteStyles = none ∨ ∃ l, cfg.quoteStyles = some l ∧ s ∈ l) := by
  unfold availableQuoteStyles
  cases h : cfg.quoteStyles with
  | none => simp
  | some l => simp [List.mem_filter]

theorem mem_availableAlignTypes (cfg : Config) (s : String) :
    s ∈ availableAlignTypes cfg ↔
      s ∈ ALIGN_TYPES ∧ (cfg.alignTypes = none ∨ ∃ l, cfg.alignTypes = some l ∧ s ∈ l) := by
  unfold availableAlignTypes
  cases h : cfg.alignTypes with
  | none => simp
  | some l => simp [List.mem_filter]

theorem ne_empty_of_mem_QUOTE_STYLES {s : String} (h : s ∈ QUOTE_STYLES) : s ≠ "" := by
  simp [QUOTE_STYLES] at h
  rcases h with rfl | rfl <;> decide

theorem ne_empty_of_mem_ALIGN_TYPES {s : String} (h : s ∈ ALIGN_TYPES) : s ≠ "" := by
  simp [ALIGN_TYPES] at h
  rcases h with rfl | rfl | rfl | rfl <;> decide

theorem ne_empty_of_mem_availableQuoteStyles {cfg : Config} {s : String}
    (h : s ∈ availableQuoteStyles cfg) : s ≠ "" :=
  ne_empty_of_mem_QUOTE_STYLES ((mem_availableQuoteStyles cfg s).1 h).1

theorem ne_empty_of_mem_availableAlignTypes {cfg : Config} {s : String}
    (h : s ∈ availableAlignTypes cfg) : s ≠ "" :=
  ne_empty_of_mem_ALIGN_TYPES ((mem_availableAlignTypes cfg s).1 h).1

/-- The code's default equals the spec's effective default. -/
theorem userDefaultQuoteStyle_eq (cfg : Config) :
    userDefaultQuoteStyle cfg = specDefaultStyle cfg := by
  unfold userDefaultQuoteStyle specDefaultStyle
  cases cfg.defaultQuoteStyle with
  | none => rfl
  | some d =>
    simp only [find_beq_right]
    by_cases hm : d ∈ availableQuoteStyles cfg
    · have := ne_empty_of_mem_availableQuoteStyles hm
      simp [hm, this]
    · simp [hm, DEFAULT_QUOTE_STYLE]

theorem userDefaultAlignType_eq (cfg : Config) :
    userDefaultAlignType cfg = specDefaultAlign cfg := by
  unfold userDefaultAlignType specDefaultAlign
  cases cfg.defaultAlignType with
  | none => rfl
  | some d =>
    simp only [find_beq_right]
    by_cases hm : d ∈ availableAlignTypes cfg
    · have := ne_empty_of_mem_availableAlignTypes hm
      simp [hm, this]
    · simp [hm, DEFAULT_ALIGN_TYPE]

theorem currentQuoteStyle_eq (cfg : Config) (data : BlockData) :
    currentQuoteStyle cfg data = specCurrentStyle cfg data.style := by
  unfold currentQuoteStyle specCurrentStyle
  rw [find_strictEq, userDefaultQuoteStyle_eq]
  cases data.style with
  | string s =>
    by_cases hm : s ∈ availableQuoteStyles cfg
    · have := ne_empty_of_mem_availableQuoteStyles hm
      simp [hm, this]
    · simp [hm]
  | _ => rfl

theorem currentAlignType_eq (cfg : Config) (data : BlockData) :
    currentAlignType cfg data = specCurrentAlign cfg data.align := by
  unfold currentAlignType specCurrentAlign
  rw [find_strictEq, userDefaultAlignType_eq]
  cases data.align with
  | string s =>
    by_cases hm : s ∈ availableAlignTypes cfg
    · have := ne_empty_of_mem_availableAlignTypes hm
      simp [hm, this]
    · simp [hm]
  | _ => rfl

theorem availableQuoteStyles_sublist (cfg : Config) :
    (availableQuoteStyles cfg).Sublist QUOTE_STYLES := by
  unfold availableQuoteStyles
  cases cfg.quoteStyles with
  | none => exact List.Sublist.refl _
  | some l => exact List.filter_sublist _

theorem availableAlignTypes_sublist (cfg : Config) :
    (availableAlignTypes cfg).Sublist ALIGN_TYPES := by
  unfold availableAlignTypes
  cases cfg.alignTypes with
  | none => exact List.Sublist.refl _
  | some l => exact List.filter_sublist _

theorem specDefaultStyle_cases (cfg : Config) :
    specDefaultStyle cfg ∈ availableQuoteStyles cfg ∨ specDefaultStyle cfg = "simple" := by
  unfold specDefaultStyle
  cases cfg.defaultQuoteStyle with
  | none => exact Or.inr rfl
  | some d =>
    by_cases hm : d ∈ availableQuoteStyles cfg
    · simp [hm]
    · simp [hm]

theorem specDefaultAlign_cases (cfg : Config) :
    specDefaultAlign cfg ∈ availableAlignTypes cfg ∨ specDefaultAlign cfg = "left" := by
  unfold specDefaultAlign
  cases cfg.defaultAlignType with
  | none => exact Or.inr rfl
  | some d =>
    by_cases hm : d ∈ availableAlignTypes cfg
    · simp [hm]
    · simp [hm]

theorem specCurrentStyle_cases (cfg : Config) (v : JSValue) :
    specCurrentStyle cfg v ∈ availableQuoteStyles cfg ∨ specCurrentStyle cfg v = "simple" := by
  unfold specCurrentStyle
  cases v with
  | string s =>
    by_cases hm : s ∈ availableQuoteStyles cfg
    · simp [hm]
    · simpa [hm] using specDefaultStyle_cases cfg
  | _ => exact specDefaultStyle_cases cfg

theorem specCurrentAlign_cases (cfg : Config) (v : JSValue) :
    specCurrentAlign cfg v ∈ availableAlignTypes cfg ∨ specCurrentAlign cfg v = "left" := by
  unfold specCurrentAlign
  cases v with
  | string s =>
    by_cases hm : s ∈ availableAlignTypes cfg
    · simp [hm]
    · simpa [hm] using specDefaultAlign_cases cfg
  | _ => exact specDefaultAlign_cases cfg

theorem currentQuoteStyle_cases (cfg : Config) (data : BlockData) :
    currentQuoteStyle cfg data ∈ availableQuoteStyles cfg ∨
      currentQuoteStyle cfg data = DEFAULT_QUOTE_STYLE := by
  rw [currentQuoteStyle_eq]
  exact specCurrentStyle_cases cfg data.style

theorem currentAlignType_cases (cfg : Config) (data : BlockData) :
    currentAlignType cfg data ∈ availableAlignTypes cfg ∨
      currentAlignType cfg data = DEFAULT_ALIGN_TYPE := by
  rw [currentAlignType_eq]
  exact specCurrentAlign_cases cfg data.align

theorem currentQuoteStyle_mem_supported (cfg : Config) (data : BlockData) :
    currentQuoteStyle cfg data ∈ QUOTE_STYLES := by
  rcases currentQuoteStyle_cases cfg data with h | h
  · exact (availableQuoteStyles_sublist cfg).subset h
  · rw [h]; decide

theorem currentAlignType_mem_supported (cfg : Config) (data : BlockData) :
    currentAlignType cfg data ∈ ALIGN_TYPES := by
  rcases currentAlignType_cases cfg data with h | h
  · exact (availableAlignTypes_sublist cfg).subset h
  · rw [h]; decide

theorem currentQuoteStyle_block_or_simple (cfg : Config) (data : BlockData) :
    currentQuoteStyle cfg data = "block" ∨ currentQuoteStyle cfg data = "simple" := by
  have h := currentQuoteStyle_mem_supported cfg data
  simp [QUOTE_STYLES] at h
  exact h.symm

/-- What `save` returns, by whether the content target exists. -/
theorem save_eq (b : Block) (blockContent : Element) :
    save b blockContent =
      match getContentTarget b.config b.data blockContent with
      | some target =>
        .ok { text := target.innerHTML
              style := currentQuoteStyle b.config b.data
              align := currentAlignType b.config b.data }
      | none => .error .typeError := by
  unfold save derefTarget
  cases getContentTarget b.config b.data blockContent <;> rfl

/-- The content target of a freshly built fragment is the content node. -/
theorem getContentTarget_getElement (api : API) (readOnly : Bool) (cfg : Config)
    (data : BlockData) :
    getContentTarget cfg data (getElement api readOnly cfg data) =
      some (createQuoteContent api readOnly cfg data) := by
  unfold getContentTarget contentIndex getElement
  by_cases h : currentQuoteStyle cfg data = "block" <;> simp [h]

/-- The class list that `_createQuoteContent` gives the content node. -/
theorem createQuoteContent_classList (api : API) (readOnly : Bool) (cfg : Config)
    (data : BlockData) :
    (createQuoteContent api readOnly cfg data).classList =
      ["ce-quote", "ce-quote-" ++ currentQuoteStyle cfg data,
        "ce-quote-align-" ++ currentAlignType cfg data] := by
  have hs := currentQuoteStyle_mem_supported cfg data
  have ha := currentAlignType_mem_supported cfg data
  simp only [createQuoteContent, wrapperForStyle, wrapperForAlignment, CSS_quote]
  generalize currentQuoteStyle cfg data = s at hs
  generalize currentAlignType cfg data = a at ha
  simp [QUOTE_STYLES] at hs
  simp [ALIGN_TYPES] at ha
  rcases hs with rfl | rfl <;> rcases ha with rfl | rfl | rfl | rfl <;> decide

/-- Normalisation does not change the resolved style. -/
theorem specCurrentStyle_or_default (cfg : Config) (v : JSValue) :
    specCurrentStyle cfg (v.or (.string (userDefaultQuoteStyle cfg))) = specCurrentStyle cfg v := by
  rw [userDefaultQuoteStyle_eq]
  unfold JSValue.or
  by_cases ht : v.truthy = true
  · simp [ht]
  · simp only [ht]
    have hd : specCurrentStyle cfg (.string (specDefaultStyle cfg)) = specDefaultStyle cfg := by
      simp [specCurrentStyle]
    simp only [Bool.false_eq_true, if_false, hd]
    cases v with
    | string s =>
      have hs : s = "" := by simpa [JSValue.truthy] using ht
      subst hs
      have : "" ∉ availableQuoteStyles cfg := fun h => ne_empty_of_mem_availableQuoteStyles h rfl
      simp [specCurrentStyle, this]
    | _ => rfl

theorem specCurrentAlign_or_default (cfg : Config) (v : JSValue) :
    specCurrentAlign cfg (v.or (.string (userDefaultAlignType cfg))) = specCurrentAlign cfg v := by
  rw [userDefaultAlignType_eq]
  unfold JSValue.or
  by_cases ht : v.truthy = true
  · simp [ht]
  · simp only [ht]
    have hd : specCurrentAlign cfg (.string (specDefaultAlign cfg)) = specDefaultAlign cfg := by
      simp [specCurrentAlign]
    simp only [Bool.false_eq_true, if_false, hd]
    cases v with
    | string s =>
      have hs : s = "" := by simpa [JSValue.truthy] using ht
      subst hs
      have : "" ∉ availableAlignTypes cfg := fun h => ne_empty_of_mem_availableAlignTypes h rfl
      simp [specCurrentAlign, this]
    | _ => rfl

/-- Normalising a record reads its three fields. -/
theorem normalizeData_object (cfg : Config) (fields : List (String × JSValue)) :
    normalizeData cfg (.object fields) = .ok
      { text := ((fields.lookup "text").getD .undefined).or (.string "")
        style := ((fields.lookup "style").getD .undefined).or
          (.string (userDefaultQuoteStyle cfg))
        align := ((fields.lookup "align").getD .undefined).or
          (.string (userDefaultAlignType cfg)) } := rfl

theorem layoutOk_iff (b : Block) :
    layoutOk b = true ↔
      ∃ c, isContentNode b.readOnly c = true ∧
        b.element.children = layoutFor (currentQuoteStyle b.config b.data) c := by
  unfold layoutOk layoutFor
  by_cases h : currentQuoteStyle b.config b.data = "block"
  · simp only [h, if_true]
    constructor
    · intro hl
      split at hl
      · rename_i o c q heq
        simp only [Bool.and_eq_true, beq_iff_eq] at hl
        exact ⟨c, hl.1.2, by rw [heq, hl.1.1, hl.2]; rfl⟩
      · exact absurd hl (by simp)
    · rintro ⟨c, hc, heq⟩
      rw [heq]
      simp [hc]
  · simp only [h, if_false]
    constructor
    · intro hl
      split at hl
      · rename_i c heq
        exact ⟨c, hl, by rw [heq]; rfl⟩
      · exact absurd hl (by simp)
    · rintro ⟨c, hc, heq⟩
      rw [heq]
      simp [hc]

theorem getContentTarget_layoutFor (cfg : Config) (data : BlockData) (el : Element) (c : Node)
    (h : el.children = layoutFor (currentQuoteStyle cfg data) c) :
    getContentTarget cfg data el = some c := by
  unfold getContentTarget contentIndex
  rw [h]
  unfold layoutFor
  by_cases hb : currentQuoteStyle cfg data = "block" <;> simp [hb]

theorem set_layoutFor (cfg : Config) (data : BlockData) (c d : Node) :
    (layoutFor (currentQuoteStyle cfg data) c).set (contentIndex cfg data) d =
      layoutFor (currentQuoteStyle cfg data) d := by
  unfold layoutFor contentIndex
  by_cases hb : currentQuoteStyle cfg data = "block" <;> simp [hb]

theorem isContentNode_createQuoteContent (api : API) (readOnly : Bool) (cfg : Config)
    (data : BlockData) :
    isContentNode readOnly (createQuoteContent api readOnly cfg data) = true := by
  unfold isContentNode
  rw [createQuoteContent_classList]
  simp [createQuoteContent, CSS_quote]

theorem layoutOk_getElement (api : API) (readOnly : Bool) (cfg : Config) (data : BlockData)
    (attached : Bool) :
    layoutOk { api := api, readOnly := readOnly, config := cfg, data := data,
               element := getElement api readOnly cfg data, attached := attached } = true := by
  rw [layoutOk_iff]
  exact ⟨_, isContentNode_createQuoteContent api readOnly cfg data, rfl⟩

theorem classAdd_classRemove (l : List String) (c : String) :
    classAdd (classRemove l c) c = classRemove l c ++ [c] := by
  unfold classAdd classRemove
  simp [List.mem_filter]

theorem classRemove_append (l m : List String) (c : String) :
    classRemove (l ++ m) c = classRemove l c ++ classRemove m c := by
  simp [classRemove]

theorem classRemove_comm (l : List String) (c d : String) :
    classRemove (classRemove l c) d = classRemove (classRemove l d) c := by
  simp [classRemove, List.filter_filter, Bool.and_comm]

theorem classRemove_idem (l : List String) (c : String) :
    classRemove (classRemove l c) c = classRemove l c := by
  simp [classRemove, List.filter_filter]

/-- The class list after the `forEach` of `_setAlignType`: the four alignment
markers are removed, and the marker of a supported new alignment is appended. -/
theorem alignFold_eq (x : JSValue) (l : List String) :
    ALIGN_TYPES.foldl (alignStep x) l =
      classRemove (classRemove (classRemove (classRemove l "ce-quote-align-left")
        "ce-quote-align-center") "ce-quote-align-right") "ce-quote-align-justify" ++
      (match x with
        | .string s => if s ∈ ALIGN_TYPES then ["ce-quote-align-" ++ s] else []
        | _ => []) := by
  cases x with
  | string s =>
    by_cases h1 : s = "left"
    · subst h1
      simp [ALIGN_TYPES, alignStep, JSValue.strictEq, wrapperForAlignment,
        classAdd_classRemove, classRemove_append]
      simp [classRemove]
    · by_cases h2 : s = "center"
      · subst h2
        simp [ALIGN_TYPES, alignStep, JSValue.strictEq, wrapperForAlignment,
          classAdd_classRemove, classRemove_append]
        simp [classRemove]
      · by_cases h3 : s = "right"
        · subst h3
          simp [ALIGN_TYPES, alignStep, JSValue.strictEq, wrapperForAlignment,
            classAdd_classRemove, classRemove_append]
          simp [classRemove]
        · by_cases h4 : s = "justify"
          · subst h4
            simp [ALIGN_TYPES, alignStep, JSValue.strictEq, wrapperForAlignment,
              classAdd_classRemove, classRemove_append]
          · simp [ALIGN_TYPES, alignStep, JSValue.strictEq, wrapperForAlignment, h1, h2, h3, h4]
  | _ => simp [ALIGN_TYPES, alignStep, JSValue.strictEq, wrapperForAlignment]

theorem and4_idem (p q r s : Bool) :
    (p && (q && (r && (s && (p && (q && (r && s))))))) = (p && (q && (r && s))) := by
  cases p <;> cases q <;> cases r <;> cases s <;> rfl

theorem alignFold_idem (x : JSValue) (l : List String) :
    ALIGN_TYPES.foldl (alignStep x) (ALIGN_TYPES.foldl (alignStep x) l) =
      ALIGN_TYPES.foldl (alignStep x) l := by
  rw [alignFold_eq x (ALIGN_TYPES.foldl (alignStep x) l), alignFold_eq x l]
  cases x with
  | string s =>
    by_cases hs : s ∈ ALIGN_TYPES
    · simp only [hs, if_true]
      simp [ALIGN_TYPES] at hs
      rcases hs with rfl | rfl | rfl | rfl <;>
        simp [classRemove, List.filter_filter, and4_idem]
    · simp [hs, classRemove, List.filter_filter, and4_idem]
  | _ => simp [classRemove, List.filter_filter, and4_idem]

theorem alignFold_mem_quote (x : JSValue) (l : List String) (h : CSS_quote ∈ l) :
    CSS_quote ∈ ALIGN_TYPES.foldl (alignStep x) l := by
  rw [alignFold_eq]
  apply List.mem_append_left
  have h2 : "ce-quote" ∈ l := h
  simp [classRemove, List.mem_filter, h2, CSS_quote]

/-- What `_setAlignType` does to a block whose fragment has the layout of its
current style. -/
theorem setAlignType_layoutFor (b : Block) (x : JSValue) (c : Node)
    (h : b.element.children = layoutFor (currentQuoteStyle b.config b.data) c) :
    setAlignType b x = .ok
      { b with
        data := { b.data with align := x }
        element :=
          { b.element with
            children := layoutFor (currentQuoteStyle b.config b.data)
              { c with classList := ALIGN_TYPES.foldl (alignStep x) c.classList } } } := by
  have hc : getContentTarget b.config { b.data with align := x } b.element = some c :=
    getContentTarget_layoutFor b.config { b.data with align := x } b.element c h
  unfold setAlignType
  simp only [hc, derefTarget]
  have := set_layoutFor b.config { b.data with align := x } c
      { c with classList := ALIGN_TYPES.foldl (alignStep x) c.classList }
  rw [h]
  simp only [bind, Except.bind, pure, Except.pure]
  congr 2
  rw [show currentQuoteStyle b.config b.data =
    currentQuoteStyle b.config { b.data with align := x } from rfl]
  rw [this]

/-- What `merge` does to a block whose fragment has the layout of its
current style, when the `text` of the argument can be read. -/
theorem merge_layoutFor (b : Block) (d text : JSValue) (c : Node)
    (h : b.element.children = layoutFor (currentQuoteStyle b.config b.data) c)
    (hd : d.get "text" = .ok text) :
    merge b d = .ok
      { b with
        element :=
          { b.element with
            children := layoutFor (currentQuoteStyle b.config b.data)
              { c with innerHTML := mergedContent c.innerHTML text } } } := by
  have hc := getContentTarget_layoutFor b.config b.data b.element c h
  unfold merge
  simp only [hc, derefTarget, hd]
  rw [h]
  simp only [bind, Except.bind, pure, Except.pure]
  rw [set_layoutFor]

theorem setAlignType_preserves (b : Block) (x : JSValue) (h : layoutOk b = true) :
    ∃ b1, setAlignType b x = .ok b1 ∧ layoutOk b1 = true ∧
      b1.attached = b.attached := by
  rcases (layoutOk_iff b).1 h with ⟨c, hc, hl⟩
  refine ⟨_, setAlignType_layoutFor b x c hl, ?_, rfl⟩
  rw [layoutOk_iff]
  refine ⟨{ c with classList := ALIGN_TYPES.foldl (alignStep x) c.classList }, ?_, rfl⟩
  simp only [isContentNode, Bool.and_eq_true, decide_eq_true_eq] at hc ⊢
  exact ⟨alignFold_mem_quote x c.classList hc.1, hc.2⟩

theorem get_text_of_callable (d : JSValue) (h : (Op.merge d).callable = true) :
    ∃ text, d.get "text" = .ok text := by
  cases d <;> first | exact ⟨_, rfl⟩ | exact absurd h (by simp [Op.callable])

theorem merge_preserves (b : Block) (d : JSValue) (h : layoutOk b = true)
    (hd : (Op.merge d).callable = true) :
    ∃ b1, merge b d = .ok b1 ∧ layoutOk b1 = true ∧ b1.attached = b.attached := by
  rcases (layoutOk_iff b).1 h with ⟨c, hc, hl⟩
  rcases get_text_of_callable d hd with ⟨text, ht⟩
  refine ⟨_, merge_layoutFor b d text c hl ht, ?_, rfl⟩
  rw [layoutOk_iff]
  exact ⟨{ c with innerHTML := mergedContent c.innerHTML text }, hc, rfl⟩

theorem setSimpleQuote_preserves (b : Block) (h : layoutOk b = true)
    (ha : b.attached = true) :
    ∃ b1, setSimpleQuote b = .ok b1 ∧ layoutOk b1 = true ∧ b1.attached = true := by
  rcases (layoutOk_iff b).1 h with ⟨c, hc, hl⟩
  have hg := getContentTarget_layoutFor b.config b.data b.element c hl
  unfold setSimpleQuote
  simp only [hg, derefTarget, bind, Except.bind, pure, Except.pure]
  have hcur : currentQuoteStyle b.config { b.data with text := .string c.innerHTML } =
      currentQuoteStyle b.config b.data := rfl
  simp only [hcur]
  by_cases hs : currentQuoteStyle b.config b.data = "simple"
  · simp only [hs, ne_eq, not_true_eq_false, if_false]
    refine ⟨_, rfl, ?_, ha⟩
    rw [layoutOk_iff]
    exact ⟨c, hc, hl⟩
  · simp only [hs, ne_eq, not_false_eq_true, if_true]
    refine ⟨_, rfl, ?_, ?_⟩
    · simp only [replaceElement, ha, if_true]
      exact layoutOk_getElement _ _ _ _ _
    · simp only [replaceElement, ha, if_true]

theorem setBlockQuote_preserves (b : Block) (h : layoutOk b = true)
    (ha : b.attached = true) :
    ∃ b1, setBlockQuote b = .ok b1 ∧ layoutOk b1 = true ∧ b1.attached = true := by
  rcases (layoutOk_iff b).1 h with ⟨c, hc, hl⟩
  have hg := getContentTarget_layoutFor b.config b.data b.element c hl
  unfold setBlockQuote
  simp only [hg, derefTarget, bind, Except.bind, pure, Except.pure]
  have hcur : currentQuoteStyle b.config { b.data with text := .string c.innerHTML } =
      currentQuoteStyle b.config b.data := rfl
  simp only [hcur]
  by_cases hs : currentQuoteStyle b.config b.data = "block"
  · simp only [hs, ne_eq, not_true_eq_false, if_false]
    refine ⟨_, rfl, ?_, ha⟩
    rw [layoutOk_iff]
    exact ⟨c, hc, hl⟩
  · simp only [hs, ne_eq, not_false_eq_true, if_true]
    refine ⟨_, rfl, ?_, ?_⟩
    · simp only [replaceElement, ha, if_true]
      exact layoutOk_getElement _ _ _ _ _
    · simp only [replaceElement, ha, if_true]

theorem applyOp_preserves (b : Block) (op : Op) (h : layoutOk b = true)
    (ha : b.attached = true) (hop : op.callable = true) :
    ∃ b1, applyOp b op = .ok b1 ∧ layoutOk b1 = true ∧ b1.attached = true := by
  cases op with
  | setSimple => exact setSimpleQuote_preserves b h ha
  | setBlock => exact setBlockQuote_preserves b h ha
  | setAlign x =>
    rcases setAlignType_preserves b x h with ⟨b1, h1, h2, h3⟩
    exact ⟨b1, h1, h2, h3.trans ha⟩
  | merge d =>
    rcases merge_preserves b d h hop with ⟨b1, h1, h2, h3⟩
    exact ⟨b1, h1, h2, h3.trans ha⟩

theorem runOps_preserves (ops : List Op) (b : Block) (h : layoutOk b = true)
    (ha : b.attached = true) (hops : ops.all Op.callable = true) :
    ∃ b1, runOps b ops = .ok b1 ∧ layoutOk b1 = true ∧ b1.attached = true := by
  induction ops generalizing b with
  | nil => exact ⟨b, rfl, h, ha⟩
  | cons op ops ih =>
    simp only [List.all_cons, Bool.and_eq_true] at hops
    rcases applyOp_preserves b op h ha hops.1 with ⟨b1, h1, h2, h3⟩
    rcases ih b1 h2 h3 hops.2 with ⟨b2, h4, h5, h6⟩
    exact ⟨b2, by simp only [runOps, h1, h4], h5, h6⟩

theorem construct_layoutOk (props : Props) (b0 : Block) (hc : construct props = .ok b0) :
    layoutOk b0 = true := by
  unfold construct at hc
  cases hn : normalizeData (props.config.getD {}) props.data with
  | error e => simp [hn, bind, Except.bind] at hc
  | ok data =>
    simp only [hn, bind, Except.bind, pure, Except.pure, Except.ok.injEq] at hc
    subst hc
    exact layoutOk_getElement _ _ _ _ _

/-! ## The claims -/

/-- C2 (as stated, refuted): a configured list with no supported value
leaves no available style, and no available alignment. -/
theorem available_empty_counterexample :
    availableQuoteStyles { quoteStyles := some [] } = [] ∧
      availableAlignTypes { alignTypes := some ["middle"] } = [] := by
  constructor <;> decide

/-- C2 (amended): the available styles and alignments are sub-lists of the
supported lists, in the supported order; each is non-empty exactly when the
configured list is absent or holds at least one supported value. -/
theorem available_sublist_supported (cfg : Config) :
    (availableQuoteStyles cfg).Sublist QUOTE_STYLES ∧
      (availableAlignTypes cfg).Sublist ALIGN_TYPES ∧
      (availableQuoteStyles cfg ≠ [] ↔
        (cfg.quoteStyles = none ∨
          ∃ l, cfg.quoteStyles = some l ∧ ∃ s, s ∈ l ∧ s ∈ QUOTE_STYLES)) ∧
      (availableAlignTypes cfg ≠ [] ↔
        (cfg.alignTypes = none ∨
          ∃ l, cfg.alignTypes = some l ∧ ∃ s, s ∈ l ∧ s ∈ ALIGN_TYPES)) := by
  refine ⟨availableQuoteStyles_sublist cfg, availableAlignTypes_sublist cfg, ?_, ?_⟩
  · constructor
    · intro hne
      rcases List.exists_mem_of_ne_nil _ hne with ⟨s, hm⟩
      rcases (mem_availableQuoteStyles cfg s).1 hm with ⟨hs, hn | ⟨l, hl, hsl⟩⟩
      · exact Or.inl hn
      · exact Or.inr ⟨l, hl, s, hsl, hs⟩
    · intro h
      rcases h with hn | ⟨l, hl, s, hsl, hs⟩
      · exact List.ne_nil_of_mem
          ((mem_availableQuoteStyles cfg "simple").2 ⟨by decide, Or.inl hn⟩)
      · exact List.ne_nil_of_mem
          ((mem_availableQuoteStyles cfg s).2 ⟨hs, Or.inr ⟨l, hl, hsl⟩⟩)
  · constructor
    · intro hne
      rcases List.exists_mem_of_ne_nil _ hne with ⟨s, hm⟩
      rcases (mem_availableAlignTypes cfg s).1 hm with ⟨hs, hn | ⟨l, hl, hsl⟩⟩
      · exact Or.inl hn
      · exact Or.inr ⟨l, hl, s, hsl, hs⟩
    · intro h
      rcases h with hn | ⟨l, hl, s, hsl, hs⟩
      · exact List.ne_nil_of_mem
          ((mem_availableAlignTypes cfg "left").2 ⟨by decide, Or.inl hn⟩)
      · exact List.ne_nil_of_mem
          ((mem_availableAlignTypes cfg s).2 ⟨hs, Or.inr ⟨l, hl, hsl⟩⟩)

/-- C1 (as stated, refuted): with only the block style configured and no
stored style, the current style is the built-in default, which is not
available; the block built from the empty record saves that style. -/
theorem current_not_available_counterexample :
    currentQuoteStyle { quoteStyles := some ["block"] }
        { text := .string "hi", style := .undefined, align := .undefined } ∉
      availableQuoteStyles { quoteStyles := some ["block"] } ∧
    ∃ b, construct
        { api := { block := "cdx-block", t := fun s => s }, readOnly := false,
          config := some { quoteStyles := some ["block"] }, data := .object [] } = .ok b ∧
      availableQuoteStyles b.config = ["block"] ∧
      save b (render b) = .ok { text := "", style := "simple", align := "left" } := by
  refine ⟨by decide, _, rfl, by decide, rfl⟩

/-- C1 (amended): the current style is an available style or else the
built-in default `simple` (when that is not available); the current
alignment is an available alignment or else the built-in default `left`;
whenever `save` returns, its style and align fields are these two values. -/
theorem current_available_or_builtin (b : Block) (blockContent : Element) :
    (currentQuoteStyle b.config b.data ∈ availableQuoteStyles b.config ∨
      (currentQuoteStyle b.config b.data = DEFAULT_QUOTE_STYLE ∧
        DEFAULT_QUOTE_STYLE ∉ availableQuoteStyles b.config)) ∧
    (currentAlignType b.config b.data ∈ availableAlignTypes b.config ∨
      (currentAlignType b.config b.data = DEFAULT_ALIGN_TYPE ∧
        DEFAULT_ALIGN_TYPE ∉ availableAlignTypes b.config)) ∧
    (save b blockContent = .error .typeError ∨
      ∃ target, getContentTarget b.config b.data blockContent = some target ∧
        save b blockContent = .ok
          { text := target.innerHTML
            style := currentQuoteStyle b.config b.data
            align := currentAlignType b.config b.data }) := by
  refine ⟨?_, ?_, ?_⟩
  · rcases currentQuoteStyle_cases b.config b.data with h | h
    · exact Or.inl h
    · by_cases hm : DEFAULT_QUOTE_STYLE ∈ availableQuoteStyles b.config
      · exact Or.inl (h ▸ hm)
      · exact Or.inr ⟨h, hm⟩
  · rcases currentAlignType_cases b.config b.data with h | h
    · exact Or.inl h
    · by_cases hm : DEFAULT_ALIGN_TYPE ∈ availableAlignTypes b.config
      · exact Or.inl (h ▸ hm)
      · exact Or.inr ⟨h, hm⟩
  · rw [save_eq]
    cases getContentTarget b.config b.data blockContent with
    | none => exact Or.inl rfl
    | some target => exact Or.inr ⟨target, rfl, rfl⟩

/-- C3: the current style is the stored style when that is available, else
the configured default when that is available, else `simple`; likewise the
current alignment with `left`.  The same resolution applies to the raw
record a block is normalised from, and the alignment `center` resolves to
`left` under the alignment list `[left, right]`. -/
theorem current_eq_resolved (cfg : Config) (data : BlockData)
    (fields : List (String × JSValue)) :
    currentQuoteStyle cfg data = specCurrentStyle cfg data.style ∧
    currentAlignType cfg data = specCurrentAlign cfg data.align ∧
    (∃ nd, normalizeData cfg (.object fields) = .ok nd ∧
      currentQuoteStyle cfg nd =
        specCurrentStyle cfg ((fields.lookup "style").getD .undefined) ∧
      currentAlignType cfg nd =
        specCurrentAlign cfg ((fields.lookup "align").getD .undefined)) ∧
    (∃ nd, normalizeData { alignTypes := some ["left", "right"] }
        (.object [("align", .string "center")]) = .ok nd ∧
      currentAlignType { alignTypes := some ["left", "right"] } nd = "left") := by
  refine ⟨currentQuoteStyle_eq cfg data, currentAlignType_eq cfg data,
    ⟨_, normalizeData_object cfg fields, ?_, ?_⟩, ⟨_, rfl, by decide⟩⟩
  · rw [currentQuoteStyle_eq]; exact specCurrentStyle_or_default cfg _
  · rw [currentAlignType_eq]; exact specCurrentAlign_or_default cfg _

/-- C10: the current style is a supported style and the current alignment a
supported alignment; the content node built for the block carries the style
and alignment markers of these two values, and `save` on the block's freshly
built fragment returns them. -/
theorem current_supported (api : API) (readOnly : Bool) (cfg : Config) (data : BlockData)
    (attached : Bool) :
    currentQuoteStyle cfg data ∈ QUOTE_STYLES ∧
    currentAlignType cfg data ∈ ALIGN_TYPES ∧
    (createQuoteContent api readOnly cfg data).classList =
      ["ce-quote", "ce-quote-" ++ currentQuoteStyle cfg data,
        "ce-quote-align-" ++ currentAlignType cfg data] ∧
    ∃ saved,
      save
          { api := api, readOnly := readOnly, config := cfg, data := data,
            element := getElement api readOnly cfg data, attached := attached }
          (getElement api readOnly cfg data) = .ok saved ∧
        saved.style ∈ QUOTE_STYLES ∧ saved.align ∈ ALIGN_TYPES := by
  refine ⟨currentQuoteStyle_mem_supported cfg data, currentAlignType_mem_supported cfg data,
    createQuoteContent_classList api readOnly cfg data, ?_⟩
  rw [save_eq]
  simp only [getContentTarget_getElement]
  exact ⟨_, rfl, currentQuoteStyle_mem_supported cfg data,
    currentAlignType_mem_supported cfg data⟩

/-- C5 (the code at the failing input): normalising `null` raises a
`TypeError`, because `typeof null` is `'object'` and `null.text` is then
read; every other non-record input is replaced by the empty record and
normalises to the empty text with the two effective defaults. -/
theorem normalizeData_null_typeError (cfg : Config) :
    normalizeData cfg .null = .error .typeError ∧
    normalizeData cfg (.object []) = .ok
      { text := .string "", style := .string (userDefaultQuoteStyle cfg),
        align := .string (userDefaultAlignType cfg) } ∧
    normalizeData cfg .undefined = normalizeData cfg (.object []) ∧
    (∀ f t, normalizeData cfg (.number f t) = normalizeData cfg (.object [])) ∧
    (∀ s, normalizeData cfg (.string s) = normalizeData cfg (.object [])) ∧
    (∀ v, normalizeData cfg (.boolean v) = normalizeData cfg (.object [])) :=
  ⟨rfl, rfl, rfl, fun _ _ => rfl, fun _ => rfl, fun _ => rfl⟩

/-- C6: the root built for a block has the children opening mark, content
node, closing mark (in this order) when the current style is `block`, and
the content node alone when it is `simple`; one of the two is the case, and
the content target of the built fragment is the content node. -/
theorem getElement_children (api : API) (readOnly : Bool) (cfg : Config) (data : BlockData) :
    ((currentQuoteStyle cfg data = "block" ∧
        (getElement api readOnly cfg data).children =
          [createOpeningQuote, createQuoteContent api readOnly cfg data, createClosingQuote]) ∨
      (currentQuoteStyle cfg data = "simple" ∧
        (getElement api readOnly cfg data).children =
          [createQuoteContent api readOnly cfg data])) ∧
    getContentTarget cfg data (getElement api readOnly cfg data) =
      some (createQuoteContent api readOnly cfg data) := by
  refine ⟨?_, getContentTarget_getElement api readOnly cfg data⟩
  rcases currentQuoteStyle_block_or_simple cfg data with h | h
  · exact Or.inl ⟨h, by simp [getElement, h]⟩
  · exact Or.inr ⟨h, by simp [getElement, h]⟩

/-- C7: a block constructed from a record whose text is the string `t`
saves, from its rendered fragment, the text `t`, the current style and the
current alignment, which are the style and alignment the raw record
resolves to. -/
theorem save_construct_roundtrip (api : API) (readOnly : Bool) (config : Option Config)
    (fields : List (String × JSValue)) (t : String)
    (ht : fields.lookup "text" = some (.string t)) :
    ∃ b, construct ⟨api, readOnly, config, .object fields⟩ = .ok b ∧
      save b (render b) = .ok
        { text := t
          style := currentQuoteStyle b.config b.data
          align := currentAlignType b.config b.data } ∧
      currentQuoteStyle b.config b.data =
        specCurrentStyle (config.getD {}) ((fields.lookup "style").getD .undefined) ∧
      currentAlignType b.config b.data =
        specCurrentAlign (config.getD {}) ((fields.lookup "align").getD .undefined) := by
  refine ⟨_, by simp only [construct, normalizeData_object]; rfl, ?_, ?_, ?_⟩
  · rw [save_eq]
    simp only [render, getContentTarget_getElement]
    have : ((JSValue.string t).or (.string "")) = .string t := by
      unfold JSValue.or
      by_cases h : t = ""
      · subst h; rfl
      · simp [JSValue.truthy, h]
    simp [createQuoteContent, ht, this, JSValue.toStr, JSValue.or, JSValue.truthy]
    by_cases h : t = "" <;> simp [h, JSValue.toStr]
  · simp only [currentQuoteStyle_eq]
    exact specCurrentStyle_or_default _ _
  · simp only [currentAlignType_eq]
    exact specCurrentAlign_or_default _ _

/-- C7 (witness): the round trip at the record with text `hi` and an
unsupported style. -/
theorem save_construct_roundtrip_witness :
    List.lookup "text" [("text", JSValue.string "hi"), ("style", JSValue.string "fancy")] =
        some (.string "hi") ∧
    ∃ b, construct ⟨⟨"cdx-block", fun s => s⟩, false, none,
          .object [("text", .string "hi"), ("style", .string "fancy")]⟩ = .ok b ∧
      save b (render b) = .ok
        { text := "hi"
          style := currentQuoteStyle b.config b.data
          align := currentAlignType b.config b.data } ∧
      currentQuoteStyle b.config b.data =
        specCurrentStyle ((none : Option Config).getD {})
          ((List.lookup "style"
            [("text", JSValue.string "hi"), ("style", JSValue.string "fancy")]).getD .undefined) ∧
      currentAlignType b.config b.data =
        specCurrentAlign ((none : Option Config).getD {})
          ((List.lookup "align"
            [("text", JSValue.string "hi"), ("style", JSValue.string "fancy")]).getD .undefined) :=
  ⟨rfl, save_construct_roundtrip _ _ _ _ _ rfl⟩

/-- C4 (the code at the failing input): on a block whose fragment is not
attached, the style callbacks change the current style without replacing the
fragment.  After `setStyle(block)` on a simple block the fragment keeps its
single child, the content target is `undefined` and `save` raises a
`TypeError`; after `setStyle(simple)` on a block-style block the fragment
keeps its three children, the content target is the opening mark and `save`
returns the mark as the text. -/
theorem unattached_setStyle_stale_fragment :
    (∃ b0 b, construct ⟨⟨"cdx-block", fun s => s⟩, false, none,
        .object [("text", .string "abc")]⟩ = .ok b0 ∧
      runOps b0 [.setBlock] = .ok b ∧
      currentQuoteStyle b.config b.data = "block" ∧
      b.element.children.length = 1 ∧
      getContentTarget b.config b.data b.element = none ∧
      layoutOk b = false ∧
      save b (render b) = .error .typeError) ∧
    (∃ b0 b, construct ⟨⟨"cdx-block", fun s => s⟩, false, none,
        .object [("text", .string "abc"), ("style", .string "block")]⟩ = .ok b0 ∧
      runOps b0 [.setSimple] = .ok b ∧
      currentQuoteStyle b.config b.data = "simple" ∧
      b.element.children.length = 3 ∧
      getContentTarget b.config b.data b.element = some createOpeningQuote ∧
      layoutOk b = false ∧
      save b (render b) = .ok { text := "“", style := "simple", align := "left" }) :=
  ⟨⟨_, _, rfl, rfl, by decide, by decide, by decide, by decide, rfl⟩,
    ⟨_, _, rfl, rfl, by decide, by decide, by decide, by decide, rfl⟩⟩

/-- Every unattached block whose fragment has the layout of its current
style, whose current style is not `block` and for which `block` is
available: `setStyle(block)` succeeds, makes the current style `block`,
keeps the old fragment and so leaves the layout inconsistent. -/
theorem setBlockQuote_unattached_stale (b : Block) (h : layoutOk b = true)
    (ha : b.attached = false) (hs : currentQuoteStyle b.config b.data ≠ "block")
    (hb : "block" ∈ availableQuoteStyles b.config) :
    ∃ b1, setBlockQuote b = .ok b1 ∧ currentQuoteStyle b1.config b1.data = "block" ∧
      b1.element = b.element ∧ layoutOk b1 = false ∧
      getContentTarget b1.config b1.data b1.element = none := by
  rcases (layoutOk_iff b).1 h with ⟨c, _, hl⟩
  have hg := getContentTarget_layoutFor b.config b.data b.element c hl
  have hcur : currentQuoteStyle b.config { b.data with text := .string c.innerHTML } =
      currentQuoteStyle b.config b.data := rfl
  have hnew : ∀ t : JSValue, currentQuoteStyle b.config
      { text := t, style := .string "block", align := b.data.align } = "block" := by
    intro t
    rw [currentQuoteStyle_eq]
    simp [specCurrentStyle, hb]
  have hch : b.element.children = [c] := by
    rw [hl]; simp [layoutFor, hs]
  refine ⟨{ b with data :=
      { text := .string c.innerHTML, style := .string "block", align := b.data.align } },
    ?_, hnew _, rfl, ?_, ?_⟩
  · unfold setBlockQuote
    simp only [hg, derefTarget, bind, Except.bind, pure, Except.pure, hcur, hs, ne_eq,
      not_false_eq_true, if_true, replaceElement, ha, Bool.false_eq_true, if_false]
  · simp only [layoutOk, hnew, if_true, hch]
  · simp only [getContentTarget, contentIndex, hnew, if_true, hch]
    rfl

/-- The sibling path: once the fragment of a constructed block is attached
to a parent, every sequence of `setStyle(simple)`, `setStyle(block)`,
`setAlign` and `merge` calls runs to a state whose fragment has the child
layout of the current style, and the content target of that fragment is the
editable content node. -/
theorem attached_layout_invariant (props : Props) (b0 : Block) (ops : List Op)
    (hc : construct props = .ok b0) (hops : ops.all Op.callable = true) :
    ∃ b, runOps (hostInsert b0) ops = .ok b ∧ layoutOk b = true ∧
      ∃ c, getContentTarget b.config b.data b.element = some c ∧
        isContentNode b.readOnly c = true ∧
        b.element.children = layoutFor (currentQuoteStyle b.config b.data) c := by
  have h0 : layoutOk (hostInsert b0) = true := construct_layoutOk props b0 hc
  rcases runOps_preserves ops (hostInsert b0) h0 rfl hops with ⟨b, hr, hl, _⟩
  rcases (layoutOk_iff b).1 hl with ⟨c, hcn, hch⟩
  exact ⟨b, hr, hl, c, getContentTarget_layoutFor _ _ _ c hch, hcn, hch⟩

/-- The attached invariant after a style change, an alignment change, a
merge and a second style change. -/
theorem attached_layout_invariant_witness :
    ∃ b0, construct ⟨⟨"cdx-block", fun s => s⟩, false, none,
        .object [("text", .string "abc")]⟩ = .ok b0 ∧
      [Op.setBlock, Op.setAlign (.string "center"), Op.merge (.object [("text", .string "d")]),
        Op.setSimple].all Op.callable = true ∧
      ∃ b, runOps (hostInsert b0)
          [Op.setBlock, Op.setAlign (.string "center"),
            Op.merge (.object [("text", .string "d")]), Op.setSimple] = .ok b ∧
        layoutOk b = true ∧
        ∃ c, getContentTarget b.config b.data b.element = some c ∧
          isContentNode b.readOnly c = true ∧
          b.element.children = layoutFor (currentQuoteStyle b.config b.data) c :=
  ⟨_, rfl, rfl,
    attached_layout_invariant
      ⟨⟨"cdx-block", fun s => s⟩, false, none, .object [("text", .string "abc")]⟩ _ _ rfl rfl⟩

/-- C8 (the code at the failing input): merging a record without `text`
into a block whose content is `abc` leaves the content `abcundefined`. -/
theorem merge_absent_text_appends_undefined :
    ∃ b0 b c, construct ⟨⟨"cdx-block", fun s => s⟩, false, none,
        .object [("text", .string "abc")]⟩ = .ok b0 ∧
      getContentTarget b0.config b0.data b0.element = some c ∧
      c.innerHTML = "abc" ∧
      merge b0 (.object []) = .ok b ∧
      (getContentTarget b.config b.data b.element).map Node.innerHTML =
        some "abcundefined" :=
  ⟨_, _, _, rfl, rfl, by decide, rfl, by decide⟩

/-- The content after `merge`, for a block whose fragment has the layout of
its current style: the previous content followed by a string `text`, and
followed by the word `undefined` when the record has no `text`. -/
theorem merge_content (b : Block) (fields : List (String × JSValue)) (h : layoutOk b = true) :
    ∃ c b1, getContentTarget b.config b.data b.element = some c ∧
      merge b (.object fields) = .ok b1 ∧
      ∃ c1, getContentTarget b1.config b1.data b1.element = some c1 ∧
        (∀ t, fields.lookup "text" = some (.string t) → c1.innerHTML = c.innerHTML ++ t) ∧
        (fields.lookup "text" = none → c1.innerHTML = c.innerHTML ++ "undefined") := by
  rcases (layoutOk_iff b).1 h with ⟨c, _, hl⟩
  refine ⟨c, _, getContentTarget_layoutFor _ _ _ c hl,
    merge_layoutFor b (.object fields) _ c hl rfl, _,
    getContentTarget_layoutFor _ _ _ _ rfl, ?_, ?_⟩
  · intro t ht
    simp only [ht, Option.getD_some, mergedContent, JSValue.toStr, JSValue.or, JSValue.truthy]
    by_cases he : c.innerHTML ++ t = "" <;> simp [he, JSValue.toStr]
  · intro ht
    simp only [ht, Option.getD_none, mergedContent, JSValue.toStr, JSValue.or, JSValue.truthy]
    by_cases he : c.innerHTML ++ "undefined" = "" <;> simp [he, JSValue.toStr]

/-- C9: on a block whose fragment has the layout of its current style,
`setAlign(x)` succeeds, and a second `setAlign(x)` succeeds and leaves the
state (data record, fragment and class list of the content node) as the
first call left it. -/
theorem setAlignType_idempotent (b : Block) (x : JSValue) (h : layoutOk b = true) :
    ∃ b1, setAlignType b x = .ok b1 ∧ setAlignType b1 x = .ok b1 := by
  rcases (layoutOk_iff b).1 h with ⟨c, _, hl⟩
  refine ⟨_, setAlignType_layoutFor b x c hl, ?_⟩
  rw [setAlignType_layoutFor _ x
    { c with classList := ALIGN_TYPES.foldl (alignStep x) c.classList } rfl]
  simp only [alignFold_idem]
  rfl

/-- C9 (witness): idempotence of `setAlign(center)` on a simple block. -/
theorem setAlignType_idempotent_witness :
    layoutOk
        { api := ⟨"cdx-block", fun s => s⟩, readOnly := false, config := {}
          data := ⟨.string "hi", .string "simple", .string "left"⟩
          element := ⟨["cdx-block"],
            [⟨"hi", true, ["ce-quote", "ce-quote-simple", "ce-quote-align-left"], none⟩]⟩
          attached := true } = true ∧
    ∃ b1, setAlignType
        { api := ⟨"cdx-block", fun s => s⟩, readOnly := false, config := {}
          data := ⟨.string "hi", .string "simple", .string "left"⟩
          element := ⟨["cdx-block"],
            [⟨"hi", true, ["ce-quote", "ce-quote-simple", "ce-quote-align-left"], none⟩]⟩
          attached := true } (.string "center") = .ok b1 ∧
      setAlignType b1 (.string "center") = .ok b1 :=
  ⟨by decide, setAlignType_idempotent _ _ (by decide)⟩

end Quote
